import Mathlib

/-!
# Frux Habitat Probes — capability admission and sandboxed execution engine

A shallow embedding of the manifest admission controller
(`src/manifest/validator.ts`, `src/manifest/types.ts`) and the sandbox
executor (`src/sandbox/executor.ts`, `src/sandbox/types.ts`), together with
theorems settling the specification claims about them.

Conventions of the embedding:
* TypeScript `number` is modelled as `ℚ` where fractional values occur
  (energy, costs, noise, milliseconds) and as `ℕ` for tick counts and
  cell/field counts.
* Optional TypeScript fields become `Option`; the `??` operator becomes
  `Option.getD`.
* `Math.max`/`Math.min` become `max`/`min`; `Math.max(0, a - b)` on ticks
  becomes truncated `ℕ` subtraction.
* `Math.random()` is modelled as an explicit stream `rand : ℕ → ℚ` of draws
  in `[0, 1)` supplied to the functions that sample noise.
-/

set_option autoImplicit false

namespace Frux

/-! ## Data model (`src/manifest/types.ts`) -/

/-- Available capabilities an agent may request. -/
inductive AgentCapability where
  | MOVE
  | SENSE
  | GENERATE_TRACE
  | PROPOSE_PACT
  | INQUIRY
deriving DecidableEq, Repr

/-- Execution mode for agent. -/
inductive AgentKind where
  | WASM
  | PROCESS
  | BUILTIN
deriving DecidableEq, Repr

/-- Rate limit configuration. -/
structure ActionRateLimit where
  windowTicks : ℕ
  max : ℕ
deriving DecidableEq, Repr

/-- Observation budget constraints. -/
structure ObservationBudget where
  maxCells : ℕ
  maxFields : ℕ
  noiseFloor : ℚ
deriving DecidableEq, Repr

/-- Energy budget constraints. -/
structure EnergyBudget where
  maxPerTick : ℚ
  maxReserve : ℚ
deriving DecidableEq, Repr

/-- Agent identity and entry point. -/
structure AgentIdentity where
  name : String
  kind : AgentKind
  entry : String
deriving DecidableEq, Repr

/-- Requested capabilities and budgets. -/
structure RequestedCapabilities where
  capabilities : List AgentCapability
  maxActionsPerWindow : Option ActionRateLimit
  computeBudgetMsPerTick : Option ℚ
  observationBudget : Option ObservationBudget
  energyBudget : Option EnergyBudget
deriving DecidableEq, Repr

/-- Compatibility requirements. -/
structure CompatRequirements where
  minHabitatVersion : Option String
deriving DecidableEq, Repr

/-- Quarantine mode settings. -/
structure QuarantineSettings where
  required : Option Bool
  shardId : Option String
deriving DecidableEq, Repr

/-- Complete agent manifest (`manifestVersion` is the literal `"1.0"` and
plays no role in admission, so it is not carried). -/
structure AgentManifest where
  agent : AgentIdentity
  requested : RequestedCapabilities
  compat : Option CompatRequirements
  quarantine : Option QuarantineSettings
deriving DecidableEq, Repr

/-- Granted capabilities after admission. -/
structure GrantedCapabilities where
  capabilities : List AgentCapability
  maxActionsPerWindow : ActionRateLimit
  computeBudgetMsPerTick : ℚ
  observationBudget : ObservationBudget
  energyBudget : EnergyBudget
  inQuarantine : Bool
  shardId : Option String
deriving DecidableEq, Repr

/-- Admission result.  In TypeScript `granted` and `rejectionReasons` are
optional fields, absent on the branch that does not set them; here the
absent list is `[]` and the absent grant is `none`. -/
structure AdmissionResult where
  admitted : Bool
  granted : Option GrantedCapabilities
  rejectionReasons : List String
deriving DecidableEq, Repr

/-- `MANIFEST_DEFAULTS` from `src/manifest/types.ts` (fields used by
admission). -/
structure ManifestDefaults where
  maxActionsPerWindow : ActionRateLimit
  computeBudgetMsPerTick : ℚ
  observationBudget : ObservationBudget
  energyBudget : EnergyBudget
  minHabitatVersion : String
deriving Repr

def MANIFEST_DEFAULTS : ManifestDefaults :=
  { maxActionsPerWindow := { windowTicks := 200, max := 10 }
    computeBudgetMsPerTick := 10
    observationBudget := { maxCells := 9, maxFields := 12, noiseFloor := 1/5 }
    energyBudget := { maxPerTick := 20, maxReserve := 200 }
    minHabitatVersion := "0.12.0" }

/-! ## World policy and admission (`src/manifest/validator.ts`) -/

/-- World policy for admission. -/
structure WorldPolicy where
  maxCapabilities : List AgentCapability
  maxActionRate : ActionRateLimit
  maxComputeBudgetMs : ℚ
  minObservationNoise : ℚ
  maxObservationCells : ℕ
  maxEnergyPerTick : ℚ
  quarantineThirdParty : Bool
  habitatVersion : String
deriving DecidableEq, Repr

/-- `DEFAULT_WORLD_POLICY` — restrictive default. -/
def DEFAULT_WORLD_POLICY : WorldPolicy :=
  { maxCapabilities := [.MOVE, .SENSE, .GENERATE_TRACE, .INQUIRY]
    maxActionRate := { windowTicks := 200, max := 5 }
    maxComputeBudgetMs := 10
    minObservationNoise := 1/5
    maxObservationCells := 9
    maxEnergyPerTick := 20
    quarantineThirdParty := true
    habitatVersion := "0.12.0" }

/-- Split a character list on `'.'` (empty segments preserved), so that a
string has the shape `segment "." segment "." segment` exactly when the
split yields those three segments. -/
def splitOnDot : List Char → List (List Char)
  | [] => [[]]
  | c :: cs =>
    if c = '.' then [] :: splitOnDot cs
    else
      match splitOnDot cs with
      | [] => [[c]]
      | s :: ss => (c :: s) :: ss

/-- Decimal value of a digit list (`parseInt` on a `\d+` match). -/
def digitsToNat : List Char → ℕ :=
  List.foldl (fun n c => 10 * n + (c.toNat - 48)) 0

/-- `parseInt` restricted to a nonempty all-digit segment, i.e. one `\d+`
group of the version regex; `none` when the segment does not match. -/
def decimalToNat? (l : List Char) : Option ℕ :=
  if !l.isEmpty && l.all Char.isDigit then some (digitsToNat l) else none

/-- Parse semver string to comparable parts.  The TypeScript source matches
the strict pattern `^(\d+)\.(\d+)\.(\d+)$` and `parseInt`s the three
groups: a string matches that regex exactly when splitting it on `'.'`
yields three segments that are each nonempty and all digits (a `\d+` group
cannot contain a dot). -/
def parseSemver (version : String) : Option (ℕ × ℕ × ℕ) :=
  match splitOnDot version.data with
  | [a, b, c] =>
    match decimalToNat? a, decimalToNat? b, decimalToNat? c with
    | some x, some y, some z => some (x, y, z)
    | _, _, _ => none
  | _ => none

/-- Compare semver: `-1` if `a < b`, `0` if equal, `1` if `a > b`; `0`
whenever either string fails to parse. -/
def compareSemver (a b : String) : ℤ :=
  match parseSemver a, parseSemver b with
  | some pa, some pb =>
    if pa.1 < pb.1 then -1
    else if pb.1 < pa.1 then 1
    else if pa.2.1 < pb.2.1 then -1
    else if pb.2.1 < pa.2.1 then 1
    else if pa.2.2 < pb.2.2 then -1
    else if pb.2.2 < pa.2.2 then 1
    else 0
  | _, _ => 0

/-- The manifest's effective minimum habitat version:
`manifest.compat?.minHabitatVersion ?? MANIFEST_DEFAULTS.minHabitatVersion`. -/
def effectiveMinVersion (manifest : AgentManifest) : String :=
  (manifest.compat.bind (·.minHabitatVersion)).getD MANIFEST_DEFAULTS.minHabitatVersion

/-- Perform admission — determine what capabilities to grant
(`performAdmission` in `src/manifest/validator.ts`). -/
def performAdmission (manifest : AgentManifest) (policy : WorldPolicy) : AdmissionResult :=
  let minVersion := effectiveMinVersion manifest
  let rejectionReasons : List String :=
    if compareSemver policy.habitatVersion minVersion < 0 then
      ["Habitat version " ++ policy.habitatVersion ++ " < required " ++ minVersion]
    else []
  if 0 < rejectionReasons.length then
    { admitted := false, granted := none, rejectionReasons := rejectionReasons }
  else
    let isBuiltin : Bool := manifest.agent.kind == AgentKind.BUILTIN
    let requestedCaps := manifest.requested.capabilities
    let grantedCaps := requestedCaps.filter (fun cap => policy.maxCapabilities.contains cap)
    let reqRate := manifest.requested.maxActionsPerWindow.getD MANIFEST_DEFAULTS.maxActionsPerWindow
    let grantedRate : ActionRateLimit :=
      { windowTicks := max reqRate.windowTicks policy.maxActionRate.windowTicks
        max := min reqRate.max policy.maxActionRate.max }
    let reqCompute := manifest.requested.computeBudgetMsPerTick.getD MANIFEST_DEFAULTS.computeBudgetMsPerTick
    let grantedCompute := min reqCompute policy.maxComputeBudgetMs
    let reqObs := manifest.requested.observationBudget.getD MANIFEST_DEFAULTS.observationBudget
    let grantedObs : ObservationBudget :=
      { maxCells := min reqObs.maxCells policy.maxObservationCells
        maxFields := reqObs.maxFields
        noiseFloor := max reqObs.noiseFloor policy.minObservationNoise }
    let reqEnergy := manifest.requested.energyBudget.getD MANIFEST_DEFAULTS.energyBudget
    let grantedEnergy : EnergyBudget :=
      { maxPerTick := min reqEnergy.maxPerTick policy.maxEnergyPerTick
        maxReserve := reqEnergy.maxReserve }
    let forceQuarantine := (manifest.quarantine.bind (·.required)).getD false
    let inQuarantine := !isBuiltin && (policy.quarantineThirdParty || forceQuarantine)
    let shardId := if inQuarantine then manifest.quarantine.bind (·.shardId) else none
    { admitted := true
      granted := some
        { capabilities := grantedCaps
          maxActionsPerWindow := grantedRate
          computeBudgetMsPerTick := grantedCompute
          observationBudget := grantedObs
          energyBudget := grantedEnergy
          inQuarantine := inQuarantine
          shardId := shardId }
      rejectionReasons := [] }

/-! ## Sandbox types (`src/sandbox/types.ts`)

`ActionRequest.params` is `Record<string, unknown>` in TypeScript: opaque,
data-only parameters.  They are modelled as an association list of strings,
which is enough to carry arbitrary adversarial keys; no sandbox function
ever inspects them. -/

abbrev Params := List (String × String)

/-- Action request from agent. -/
structure ActionRequest where
  type : AgentCapability
  params : Params
deriving DecidableEq, Repr

inductive ActionRejectionCode where
  | INSUFFICIENT_ENERGY
  | CAPABILITY_NOT_GRANTED
  | RATE_LIMIT_EXCEEDED
  | INVALID_PARAMS
  | WORLD_REJECTED
  | COMPUTE_BUDGET_EXCEEDED
deriving DecidableEq, Repr

/-- Reason for action rejection. -/
structure ActionRejection where
  code : ActionRejectionCode
  message : String
deriving DecidableEq, Repr

/-- Action result from world (the optional `result` payload is never set by
the executor and is omitted). -/
structure ActionResult where
  executed : Bool
  energyCost : ℚ
  rejection : Option ActionRejection
deriving DecidableEq, Repr

/-- One entry of the sliding action log: `{tick, type}`. -/
structure WindowEntry where
  tick : ℕ
  type : AgentCapability
deriving DecidableEq, Repr

/-- Sliding window for action rate limiting. -/
structure ActionWindowState where
  actions : List WindowEntry
  windowStart : ℕ
deriving DecidableEq, Repr

/-- Sandbox execution context. -/
structure SandboxContext where
  granted : GrantedCapabilities
  agentId : String
  shardId : Option String
  actionWindow : ActionWindowState
  computeUsedMs : ℚ
deriving DecidableEq, Repr

/-! ## Sandbox executor (`src/sandbox/executor.ts`) -/

/-- Create initial sandbox context for an agent. -/
def createSandboxContext (agentId : String) (granted : GrantedCapabilities)
    (currentTick : ℕ) : SandboxContext :=
  { granted := granted
    agentId := agentId
    shardId := granted.shardId
    actionWindow := { actions := [], windowStart := currentTick }
    computeUsedMs := 0 }

/-- Printable capability name (for the rejection messages the TypeScript
builds by string interpolation). -/
def capName : AgentCapability → String
  | .MOVE => "MOVE"
  | .SENSE => "SENSE"
  | .GENERATE_TRACE => "GENERATE_TRACE"
  | .PROPOSE_PACT => "PROPOSE_PACT"
  | .INQUIRY => "INQUIRY"

/-- Update action window — slide window and add new actions.
`Math.max(0, currentTick - windowTicks)` is truncated `ℕ` subtraction. -/
def updateActionWindow (window : ActionWindowState) (currentTick windowTicks : ℕ)
    (newActions : List ActionRequest) : ActionWindowState :=
  let windowStart := currentTick - windowTicks
  let actions := window.actions.filter (fun a => decide (windowStart ≤ a.tick))
  let actions := actions ++ newActions.map (fun a => { tick := currentTick, type := a.type })
  { actions := actions, windowStart := windowStart }

/-- Check if action would exceed rate limit (`window.actions.length >= max`). -/
def wouldExceedRateLimit (window : ActionWindowState) (granted : GrantedCapabilities) : Bool :=
  granted.maxActionsPerWindow.max ≤ window.actions.length

/-- Validate action request against granted capabilities. -/
def validateAction (action : ActionRequest) (context : SandboxContext) :
    Option ActionRejection :=
  if !(context.granted.capabilities.contains action.type) then
    some { code := .CAPABILITY_NOT_GRANTED
           message := "Capability " ++ capName action.type ++ " not granted" }
  else if wouldExceedRateLimit context.actionWindow context.granted then
    some { code := .RATE_LIMIT_EXCEEDED
           message := "Rate limit exceeded: " ++ toString context.granted.maxActionsPerWindow.max
             ++ " actions per " ++ toString context.granted.maxActionsPerWindow.windowTicks
             ++ " ticks" }
  else
    none

/-- Result record of `processActions`. -/
structure ProcessOut where
  results : List ActionResult
  totalCost : ℚ
  updatedWindow : ActionWindowState
deriving DecidableEq, Repr

/-- The loop body of `processActions`, recursing over the action list while
carrying the running remaining energy and the accumulated window.  The
context passed to `validateAction` is the original one with only
`actionWindow` replaced, exactly as the TypeScript spread does, and the
window update always uses the original `context.actionWindow.windowStart`
("Use existing window start" in the source). -/
def processActionsGo (context : SandboxContext) (getCost : ActionRequest → ℚ) :
    List ActionRequest → ℚ → ActionWindowState → ProcessOut
  | [], _, w => { results := [], totalCost := 0, updatedWindow := w }
  | action :: rest, remainingEnergy, w =>
    match validateAction action { context with actionWindow := w } with
    | some rejection =>
      let out := processActionsGo context getCost rest remainingEnergy w
      { results := { executed := false, energyCost := 0, rejection := some rejection } :: out.results
        totalCost := out.totalCost
        updatedWindow := out.updatedWindow }
    | none =>
      let cost := getCost action
      if remainingEnergy < cost then
        let out := processActionsGo context getCost rest remainingEnergy w
        let rej : ActionRejection :=
          { code := .INSUFFICIENT_ENERGY
            message := "Action requires " ++ toString cost ++ " energy, only "
              ++ toString remainingEnergy ++ " available" }
        { results := { executed := false, energyCost := 0, rejection := some rej } :: out.results
          totalCost := out.totalCost
          updatedWindow := out.updatedWindow }
      else
        let w' := updateActionWindow w context.actionWindow.windowStart
          context.granted.maxActionsPerWindow.windowTicks [action]
        let out := processActionsGo context getCost rest (remainingEnergy - cost) w'
        { results := { executed := true, energyCost := cost, rejection := none } :: out.results
          totalCost := out.totalCost + cost
          updatedWindow := out.updatedWindow }

/-- Process actions through world validation (`processActions`). -/
def processActions (actions : List ActionRequest) (context : SandboxContext)
    (currentEnergy : ℚ) (getCost : ActionRequest → ℚ) : ProcessOut :=
  processActionsGo context getCost actions currentEnergy context.actionWindow

/-! ## Untyped step output (`executeStep` output validation)

The agent step function is untrusted JavaScript: the value it resolves with
can have any dynamic shape.  `JsVal` models the JavaScript values relevant
to the executor's output check (`!output || !Array.isArray(output.actions)`). -/

inductive JsVal where
  | vNull
  | vUndefined
  | vBool (b : Bool)
  | vNum (q : ℚ)
  | vStr (s : String)
  | vArr (elems : List JsVal)
  | vObj (fields : List (String × JsVal))

/-- JavaScript truthiness (`ℚ` has no NaN, which is also falsy in JS). -/
def JsVal.truthy : JsVal → Bool
  | .vNull => false
  | .vUndefined => false
  | .vBool b => b
  | .vNum q => decide (q ≠ 0)
  | .vStr s => decide (s ≠ "")
  | .vArr _ => true
  | .vObj _ => true

/-- Property access `v[key]`: named lookup on objects, `undefined`
otherwise.  (The executor only dereferences after a truthiness guard, so
the throwing cases `null.x`/`undefined.x` are unreachable.) -/
def JsVal.getProp : JsVal → String → JsVal
  | .vObj fields, key =>
    match fields.find? (fun p => p.1 == key) with
    | some p => p.2
    | none => .vUndefined
  | _, _ => .vUndefined

/-- `Array.isArray`. -/
def JsVal.isArray : JsVal → Bool
  | .vArr _ => true
  | _ => false

/-- Is the value a JS number. -/
def JsVal.isNumber : JsVal → Bool
  | .vNum _ => true
  | _ => false

inductive SandboxErrorCode where
  | TIMEOUT
  | MEMORY_EXCEEDED
  | INVALID_OUTPUT
  | CRASH
  | SANDBOX_VIOLATION
deriving DecidableEq, Repr

/-- Sandbox execution result as produced on the path of `executeStep` where
the step resolved (no timeout, no throw): only the output-validation branch
remains.  `error` is reduced to its code; the constant message plays no
role in the claims. -/
structure StepResolvedResult where
  output : Option JsVal
  errorCode : Option SandboxErrorCode
  actualComputeMs : ℚ
  computeBudgetExceeded : Bool

/-- The resolved-without-throwing path of `executeStep`
(`src/sandbox/executor.ts`, lines 188–207): measure time, then return
`INVALID_OUTPUT` when `!output || !Array.isArray(output.actions)`, and the
output otherwise.  The wall-clock measurement is an input here
(`actualComputeMs`), since real time is outside the embedding. -/
def executeStepResolved (output : JsVal) (actualComputeMs budgetMs : ℚ) :
    StepResolvedResult :=
  let computeBudgetExceeded := decide (budgetMs < actualComputeMs)
  if !output.truthy || !(output.getProp "actions").isArray then
    { output := none
      errorCode := some .INVALID_OUTPUT
      actualComputeMs := actualComputeMs
      computeBudgetExceeded := computeBudgetExceeded }
  else
    { output := some output
      errorCode := none
      actualComputeMs := actualComputeMs
      computeBudgetExceeded := computeBudgetExceeded }

/-- A well-formed `{actions: list, computeTimeMs: number}` shape, as the
specification words it. -/
def wellFormedStepOutput (v : JsVal) : Bool :=
  (v.getProp "actions").isArray && (v.getProp "computeTimeMs").isNumber

/-! ## Observation degradation (`degradeObservation`) -/

/-- Single observed cell.  The open-ended `fields` map keeps the source
map's iteration order as an association list; field values are untyped. -/
structure ObservedCell where
  dx : ℤ
  dy : ℤ
  zone : String
  entityCount : ℚ
  traceDensity : ℚ
  fields : List (String × JsVal)

/-- Degraded observation with noise applied. -/
structure DegradedObservation where
  cells : List ObservedCell
  noiseApplied : ℚ
  fieldsOmitted : ℕ

/-- JavaScript `Math.round`: half-way cases round toward `+∞`. -/
def jsRound (q : ℚ) : ℤ := ⌊q + 1/2⌋

/-- Degrade observation according to budget (`degradeObservation`).

`rand` supplies the `Math.random()` draw for each retained cell, indexed by
the cell's position in the truncated list; each draw lies in `[0, 1)`.  The
per-cell `fieldsOmitted` counter incremented inside the map callback in the
source is dead code (never read) and is not carried; the reported
`fieldsOmitted` is `rawCells.length - limitedCells.length` as in the
source's return statement. -/
def degradeObservation (rawCells : List ObservedCell) (granted : GrantedCapabilities)
    (rand : ℕ → ℚ) : DegradedObservation :=
  let budget := granted.observationBudget
  let limitedCells := rawCells.take budget.maxCells
  let degradedCells := limitedCells.enum.map (fun p =>
    let cell := p.2
    let noiseMultiplier := 1 + (rand p.1 * 2 - 1) * budget.noiseFloor
    { cell with
      entityCount := (jsRound (cell.entityCount * noiseMultiplier) : ℚ)
      traceDensity := cell.traceDensity * noiseMultiplier
      fields := cell.fields.take budget.maxFields })
  { cells := degradedCells
    noiseApplied := budget.noiseFloor
    fieldsOmitted := rawCells.length - limitedCells.length }

/-! ## Concrete inputs used by the witnesses -/

/-- A plain third-party agent identity. -/
def probeIdentity : AgentIdentity :=
  { name := "probe", kind := .PROCESS, entry := "agents/probe.js" }

/-- Manifest requesting one capability outside the default policy ceiling
(`PROPOSE_PACT` is not in `DEFAULT_WORLD_POLICY.maxCapabilities`). -/
def overAskManifest : AgentManifest :=
  { agent := probeIdentity
    requested := { capabilities := [.MOVE, .PROPOSE_PACT], maxActionsPerWindow := none
                   computeBudgetMsPerTick := none, observationBudget := none
                   energyBudget := none }
    compat := none
    quarantine := none }

/-- The §8 scenario manifest: requests
`{capabilities:["MOVE","SENSE"], observationBudget:{maxCells:25, noiseFloor:0.05}}`
(the TypeScript `ObservationBudget` type also carries `maxFields`; the
default 12 is used). -/
def scenarioManifest : AgentManifest :=
  { agent := probeIdentity
    requested := { capabilities := [.MOVE, .SENSE], maxActionsPerWindow := none
                   computeBudgetMsPerTick := none
                   observationBudget := some { maxCells := 25, maxFields := 12, noiseFloor := 1/20 }
                   energyBudget := none }
    compat := none
    quarantine := none }

/-- Manifest demanding a habitat newer than the default policy's `0.12.0`. -/
def futureManifest : AgentManifest :=
  { agent := probeIdentity
    requested := { capabilities := [.MOVE], maxActionsPerWindow := none
                   computeBudgetMsPerTick := none, observationBudget := none
                   energyBudget := none }
    compat := some { minHabitatVersion := some "0.13.0" }
    quarantine := none }

/-- Manifest that itself requests quarantine in a named shard. -/
def quarantineManifest : AgentManifest :=
  { agent := probeIdentity
    requested := { capabilities := [.MOVE], maxActionsPerWindow := none
                   computeBudgetMsPerTick := none, observationBudget := none
                   energyBudget := none }
    compat := none
    quarantine := some { required := some true, shardId := some "shard-wild" } }

/-- The default policy with third-party quarantine switched off, so the
manifest-requested quarantine is what decides. -/
def laxQuarantinePolicy : WorldPolicy :=
  { DEFAULT_WORLD_POLICY with quarantineThirdParty := false }

/-- The default policy with a malformed (two-part) habitat version string. -/
def malformedVersionPolicy : WorldPolicy :=
  { DEFAULT_WORLD_POLICY with habitatVersion := "0.12" }

/-! ## Claims about admission -/

/-- **C1.** Whenever admission admits, the granted capability list is a
subset of the requested capabilities and of the policy ceiling, and no
error is reported (`rejectionReasons` stays empty): over-asking only
shrinks the grant. -/
theorem admission_grant_subset_of_request_and_policy
    (m : AgentManifest) (p : WorldPolicy)
    (h : (performAdmission m p).admitted = true) :
    (performAdmission m p).granted.map (fun g =>
        g.capabilities.all (fun c => m.requested.capabilities.contains c) &&
        g.capabilities.all (fun c => p.maxCapabilities.contains c)) = some true ∧
    (performAdmission m p).rejectionReasons = [] := by
  by_cases hv : compareSemver p.habitatVersion (effectiveMinVersion m) < 0
  · simp [performAdmission, hv] at h
  · refine ⟨?_, by simp [performAdmission, hv]⟩
    simp [performAdmission, hv, List.all_eq_true, List.mem_filter]
    exact fun c hc => Or.inr hc

/-- Witness for C1: a manifest over-asking `PROPOSE_PACT` against the
default policy still admits, with a grant inside both bounds. -/
theorem admission_grant_subset_of_request_and_policy_witness :
    (performAdmission overAskManifest DEFAULT_WORLD_POLICY).admitted = true ∧
    ((performAdmission overAskManifest DEFAULT_WORLD_POLICY).granted.map (fun g =>
        g.capabilities.all (fun c => overAskManifest.requested.capabilities.contains c) &&
        g.capabilities.all (fun c => DEFAULT_WORLD_POLICY.maxCapabilities.contains c)) = some true ∧
      (performAdmission overAskManifest DEFAULT_WORLD_POLICY).rejectionReasons = []) :=
  ⟨by decide, admission_grant_subset_of_request_and_policy overAskManifest
    DEFAULT_WORLD_POLICY (by decide)⟩

/-- **C2.** On the admitted path every budget field resolves exactly as the
specification's min/max table says, with absent optional request fields
replaced by `MANIFEST_DEFAULTS` before resolution: window = max, rate cap
= min, compute = min, observation cells = min, noise floor = max, energy
per tick = min, and `maxFields`/`maxReserve` pass through. -/
theorem admission_budget_resolution (m : AgentManifest) (p : WorldPolicy)
    (h : (performAdmission m p).admitted = true) :
    (performAdmission m p).granted.map (·.maxActionsPerWindow) =
      some { windowTicks := max (m.requested.maxActionsPerWindow.getD
                MANIFEST_DEFAULTS.maxActionsPerWindow).windowTicks p.maxActionRate.windowTicks
             max := min (m.requested.maxActionsPerWindow.getD
                MANIFEST_DEFAULTS.maxActionsPerWindow).max p.maxActionRate.max } ∧
    (performAdmission m p).granted.map (·.computeBudgetMsPerTick) =
      some (min (m.requested.computeBudgetMsPerTick.getD
        MANIFEST_DEFAULTS.computeBudgetMsPerTick) p.maxComputeBudgetMs) ∧
    (performAdmission m p).granted.map (·.observationBudget) =
      some { maxCells := min (m.requested.observationBudget.getD
                MANIFEST_DEFAULTS.observationBudget).maxCells p.maxObservationCells
             maxFields := (m.requested.observationBudget.getD
                MANIFEST_DEFAULTS.observationBudget).maxFields
             noiseFloor := max (m.requested.observationBudget.getD
                MANIFEST_DEFAULTS.observationBudget).noiseFloor p.minObservationNoise } ∧
    (performAdmission m p).granted.map (·.energyBudget) =
      some { maxPerTick := min (m.requested.energyBudget.getD
                MANIFEST_DEFAULTS.energyBudget).maxPerTick p.maxEnergyPerTick
             maxReserve := (m.requested.energyBudget.getD
                MANIFEST_DEFAULTS.energyBudget).maxReserve } := by
  by_cases hv : compareSemver p.habitatVersion (effectiveMinVersion m) < 0
  · simp [performAdmission, hv] at h
  · simp [performAdmission, hv]

/-- Witness for C2 — the §8 scenario: requested observation budget
`{maxCells:25, noiseFloor:0.05}` against the default policy ceiling
`{maxObservationCells:9, minObservationNoise:0.2}` grants exactly
`{maxCells:9, noiseFloor:0.2}` (with `maxFields` passed through). -/
theorem admission_budget_resolution_witness :
    (performAdmission scenarioManifest DEFAULT_WORLD_POLICY).admitted = true ∧
    (performAdmission scenarioManifest DEFAULT_WORLD_POLICY).granted.map (·.observationBudget) =
      some { maxCells := 9, maxFields := 12, noiseFloor := 1/5 } := by
  have h := admission_budget_resolution scenarioManifest DEFAULT_WORLD_POLICY (by decide)
  have h2 := h.2.2.1
  have e1 : min (scenarioManifest.requested.observationBudget.getD
      MANIFEST_DEFAULTS.observationBudget).maxCells DEFAULT_WORLD_POLICY.maxObservationCells = 9 := by
    decide
  have e3 : max (scenarioManifest.requested.observationBudget.getD
      MANIFEST_DEFAULTS.observationBudget).noiseFloor DEFAULT_WORLD_POLICY.minObservationNoise = 1/5 :=
    max_eq_right (show (1 : ℚ)/20 ≤ 1/5 by norm_num)
  rw [e1, e3] at h2
  exact ⟨by decide, h2⟩

/-- **C3.** Admission rejects precisely when the three-part numeric semver
comparison finds the policy's habitat version below the manifest's
effective minimum; on rejection no grant is computed, and in every other
case admission succeeds with a grant. -/
theorem admission_version_gate_iff (m : AgentManifest) (p : WorldPolicy) :
    ((performAdmission m p).admitted = false ↔
      compareSemver p.habitatVersion (effectiveMinVersion m) < 0) ∧
    ((performAdmission m p).admitted = false → (performAdmission m p).granted = none) ∧
    ((performAdmission m p).admitted = true → (performAdmission m p).granted.isSome = true) := by
  by_cases h : compareSemver p.habitatVersion (effectiveMinVersion m) < 0 <;>
    simp [performAdmission, h]

/-- Witness for C3 at a concrete rejecting pair: a manifest demanding
`0.13.0` against the `0.12.0` policy. -/
theorem admission_version_gate_iff_witness :
    ((performAdmission futureManifest DEFAULT_WORLD_POLICY).admitted = false ↔
      compareSemver DEFAULT_WORLD_POLICY.habitatVersion (effectiveMinVersion futureManifest) < 0) ∧
    ((performAdmission futureManifest DEFAULT_WORLD_POLICY).admitted = false →
      (performAdmission futureManifest DEFAULT_WORLD_POLICY).granted = none) ∧
    ((performAdmission futureManifest DEFAULT_WORLD_POLICY).admitted = true →
      (performAdmission futureManifest DEFAULT_WORLD_POLICY).granted.isSome = true) :=
  admission_version_gate_iff futureManifest DEFAULT_WORLD_POLICY

/-- **C9.** On the admitted path, BUILTIN agents are never quarantined;
non-BUILTIN agents are quarantined exactly when the policy forces
third-party quarantine or the manifest requires it; the shard id is the
manifest's named shard when quarantined and unset otherwise. -/
theorem admission_quarantine_assignment (m : AgentManifest) (p : WorldPolicy)
    (h : (performAdmission m p).admitted = true) :
    (m.agent.kind = .BUILTIN →
      (performAdmission m p).granted.map (·.inQuarantine) = some false) ∧
    (m.agent.kind ≠ .BUILTIN →
      ((performAdmission m p).granted.map (·.inQuarantine) = some true ↔
        (p.quarantineThirdParty = true ∨ (m.quarantine.bind (·.required)).getD false = true))) ∧
    ((performAdmission m p).granted.map (·.shardId) =
      some (if (performAdmission m p).granted.map (·.inQuarantine) = some true
        then m.quarantine.bind (·.shardId) else none)) := by
  by_cases hv : compareSemver p.habitatVersion (effectiveMinVersion m) < 0
  · simp [performAdmission, hv] at h
  · refine ⟨?_, ?_, ?_⟩
    · intro hk; simp [performAdmission, hv, hk]
    · intro hk; simp [performAdmission, hv, hk]
    · by_cases hk : m.agent.kind = AgentKind.BUILTIN <;>
        simp [performAdmission, hv, hk]

/-- Witness for C9: a manifest-required quarantine under a policy that does
not force third-party quarantine, with the named shard propagated. -/
theorem admission_quarantine_assignment_witness :
    (performAdmission quarantineManifest laxQuarantinePolicy).admitted = true ∧
    ((quarantineManifest.agent.kind = .BUILTIN →
      (performAdmission quarantineManifest laxQuarantinePolicy).granted.map (·.inQuarantine) = some false) ∧
    (quarantineManifest.agent.kind ≠ .BUILTIN →
      ((performAdmission quarantineManifest laxQuarantinePolicy).granted.map (·.inQuarantine) = some true ↔
        (laxQuarantinePolicy.quarantineThirdParty = true ∨
          (quarantineManifest.quarantine.bind (·.required)).getD false = true))) ∧
    ((performAdmission quarantineManifest laxQuarantinePolicy).granted.map (·.shardId) =
      some (if (performAdmission quarantineManifest laxQuarantinePolicy).granted.map (·.inQuarantine) = some true
        then quarantineManifest.quarantine.bind (·.shardId) else none))) :=
  ⟨by decide, admission_quarantine_assignment quarantineManifest laxQuarantinePolicy (by decide)⟩

/-- **C10.** When either version string fails the strict numeric
`major.minor.patch` pattern, `compareSemver` treats the versions as equal,
so admission never rejects on versions then: a grant is still computed. -/
theorem malformed_version_admits (m : AgentManifest) (p : WorldPolicy)
    (h : parseSemver p.habitatVersion = none ∨ parseSemver (effectiveMinVersion m) = none) :
    compareSemver p.habitatVersion (effectiveMinVersion m) = 0 ∧
    (performAdmission m p).admitted = true ∧
    (performAdmission m p).granted.isSome = true := by
  have hc : compareSemver p.habitatVersion (effectiveMinVersion m) = 0 := by
    unfold compareSemver
    rcases h with h | h <;> simp [h]
  refine ⟨hc, ?_, ?_⟩ <;> simp [performAdmission, hc]

/-- Witness for C10: a policy whose habitat version `"0.12"` is malformed
admits a manifest whose effective minimum is the well-formed default. -/
theorem malformed_version_admits_witness :
    parseSemver malformedVersionPolicy.habitatVersion = none ∧
    (compareSemver malformedVersionPolicy.habitatVersion (effectiveMinVersion overAskManifest) = 0 ∧
      (performAdmission overAskManifest malformedVersionPolicy).admitted = true ∧
      (performAdmission overAskManifest malformedVersionPolicy).granted.isSome = true) :=
  ⟨by decide, malformed_version_admits overAskManifest malformedVersionPolicy (Or.inl (by decide))⟩

/-! ## Claims about the action processor -/

/-- The grant used by the sandbox claims (mirrors the executor test
fixture). -/
def baseGranted : GrantedCapabilities :=
  { capabilities := [.MOVE, .SENSE]
    maxActionsPerWindow := { windowTicks := 200, max := 5 }
    computeBudgetMsPerTick := 10
    observationBudget := { maxCells := 9, maxFields := 12, noiseFloor := 1/5 }
    energyBudget := { maxPerTick := 20, maxReserve := 200 }
    inQuarantine := false
    shardId := none }

/-- A fresh context at tick 100 with an empty window. -/
def freshCtx : SandboxContext := createSandboxContext "agent-1" baseGranted 100

/-- A context whose window still carries one stale executed action from
tick 0, with the window-start tick at 100 and a 10-tick, one-action rate
limit. -/
def staleWindowCtx : SandboxContext :=
  { granted := { baseGranted with maxActionsPerWindow := { windowTicks := 10, max := 1 } }
    agentId := "agent-1"
    shardId := none
    actionWindow := { actions := [{ tick := 0, type := .MOVE }], windowStart := 100 }
    computeUsedMs := 0 }

/-- Helper: an action with a granted capability passes validation when the
window is below the rate-limit cap. -/
theorem validateAction_none (a : ActionRequest) (ctx : SandboxContext)
    (hcap : ctx.granted.capabilities.contains a.type = true)
    (hlt : ctx.actionWindow.actions.length < ctx.granted.maxActionsPerWindow.max) :
    validateAction a ctx = none := by
  have hmem : a.type ∈ ctx.granted.capabilities := by simpa using hcap
  simp [validateAction, wouldExceedRateLimit, hmem, Nat.not_le.mpr hlt]

/-- **C4 counterexample.** The stale entry at tick 0 is far outside the
window `[windowStart − windowTicks, windowStart] = [90, 100]`, so under
the claim's reading (eviction relative to the current tick before the
check) the recomputed window holds fewer than `max` entries and the
granted, affordable `MOVE` should execute; `processActions` nevertheless
rejects it with `RATE_LIMIT_EXCEEDED`, because it checks the window as
stored, without evicting first. -/
theorem processActions_no_eviction_counterexample :
    ((staleWindowCtx.actionWindow.actions.filter (fun a =>
        decide (staleWindowCtx.actionWindow.windowStart -
          staleWindowCtx.granted.maxActionsPerWindow.windowTicks ≤ a.tick))).length <
      staleWindowCtx.granted.maxActionsPerWindow.max) ∧
    staleWindowCtx.granted.capabilities.contains AgentCapability.MOVE = true ∧
    (1 : ℚ) ≤ 100 ∧
    (processActions [{ type := .MOVE, params := [] }] staleWindowCtx 100 (fun _ => 1)).results.map
        (fun r => (r.executed, r.rejection.map (·.code))) =
      [(false, some .RATE_LIMIT_EXCEEDED)] :=
  ⟨by decide, by decide, by norm_num, by decide⟩

/-- **C4 (amended).** `processActions` checks the rate limit against the
window exactly as carried in the context, with no eviction before the
check: a granted action is rejected with `RATE_LIMIT_EXCEEDED` whenever
the stored window already holds `≥ max` entries, whatever their ticks,
and the window is then left untouched.  Only on execution is the window
recomputed, in place of a per-call current tick using the context's
`windowStart`: entries with `tick < windowStart − windowTicks` are
evicted and the executed action is recorded under tick `windowStart`. -/
theorem processActions_rate_check_and_window_update (ctx : SandboxContext)
    (a : ActionRequest) (E : ℚ) (getCost : ActionRequest → ℚ) :
    (ctx.granted.maxActionsPerWindow.max ≤ ctx.actionWindow.actions.length →
      ctx.granted.capabilities.contains a.type = true →
      (processActions [a] ctx E getCost).results.map
          (fun r => (r.executed, r.rejection.map (·.code))) =
        [(false, some .RATE_LIMIT_EXCEEDED)] ∧
      (processActions [a] ctx E getCost).updatedWindow = ctx.actionWindow) ∧
    (ctx.actionWindow.actions.length < ctx.granted.maxActionsPerWindow.max →
      ctx.granted.capabilities.contains a.type = true →
      getCost a ≤ E →
      (processActions [a] ctx E getCost).results.map
          (fun r => (r.executed, r.rejection.map (·.code))) =
        [(true, none)] ∧
      (processActions [a] ctx E getCost).updatedWindow =
        { actions := (ctx.actionWindow.actions.filter (fun e =>
              decide (ctx.actionWindow.windowStart -
                ctx.granted.maxActionsPerWindow.windowTicks ≤ e.tick)))
            ++ [{ tick := ctx.actionWindow.windowStart, type := a.type }]
          windowStart := ctx.actionWindow.windowStart -
            ctx.granted.maxActionsPerWindow.windowTicks }) := by
  constructor
  · intro hfull hcap
    have hmem : a.type ∈ ctx.granted.capabilities := by simpa using hcap
    have hctx : ({ ctx with actionWindow := ctx.actionWindow } : SandboxContext) = ctx := rfl
    simp [processActions, processActionsGo, hctx, validateAction, wouldExceedRateLimit,
      hmem, hfull]
  · intro hlt hcap hcost
    have hval : validateAction a ctx = none := validateAction_none a ctx hcap hlt
    have hctx : ({ ctx with actionWindow := ctx.actionWindow } : SandboxContext) = ctx := rfl
    simp [processActions, processActionsGo, hctx, hval, not_lt.mpr hcost,
      updateActionWindow]

/-- Witness for C4 (amended), at the same stale context: the full window
rejects and stays unchanged. -/
theorem processActions_rate_check_and_window_update_witness :
    (processActions [{ type := .MOVE, params := [] }] staleWindowCtx 100 (fun _ => 1)).results.map
        (fun r => (r.executed, r.rejection.map (·.code))) =
      [(false, some .RATE_LIMIT_EXCEEDED)] ∧
    (processActions [{ type := .MOVE, params := [] }] staleWindowCtx 100 (fun _ => 1)).updatedWindow =
      staleWindowCtx.actionWindow :=
  (processActions_rate_check_and_window_update staleWindowCtx
    { type := .MOVE, params := [] } 100 (fun _ => 1)).1 (by decide) (by decide)

/-- Helper for C5: behaviour of the processing loop under a fixed positive
cost, granted capabilities and a non-binding rate limit, for any starting
window and energy. -/
theorem processActionsGo_fixed_cost_spec (ctx : SandboxContext)
    (getCost : ActionRequest → ℚ) (C : ℚ) (hC : 0 < C) :
    ∀ (acts : List ActionRequest) (E : ℚ) (w : ActionWindowState),
      (∀ a ∈ acts, ctx.granted.capabilities.contains a.type = true) →
      (∀ a ∈ acts, getCost a = C) →
      0 ≤ E →
      w.actions.length + acts.length ≤ ctx.granted.maxActionsPerWindow.max →
      (processActionsGo ctx getCost acts E w).results.countP (·.executed) =
          min acts.length (⌊E / C⌋).toNat ∧
      (processActionsGo ctx getCost acts E w).totalCost =
          ((min acts.length (⌊E / C⌋).toNat : ℕ) : ℚ) * C ∧
      (processActionsGo ctx getCost acts E w).results.length = acts.length ∧
      (∀ r ∈ (processActionsGo ctx getCost acts E w).results,
        (r.executed = true ∧ r.energyCost = C ∧ r.rejection = none) ∨
        (r.executed = false ∧ r.energyCost = 0 ∧
          ∃ rej, r.rejection = some rej ∧ rej.code = .INSUFFICIENT_ENERGY)) := by
  intro acts
  induction acts with
  | nil =>
    intro E w _ _ hE _
    simp [processActionsGo]
  | cons a rest ih =>
    intro E w hcap hcost hE hrate
    simp only [List.length_cons] at hrate
    have hlt : w.actions.length < ctx.granted.maxActionsPerWindow.max := by omega
    have hval : validateAction a { ctx with actionWindow := w } = none :=
      validateAction_none a _ (hcap a (List.mem_cons_self a rest)) hlt
    have ha : getCost a = C := hcost a (List.mem_cons_self a rest)
    by_cases hEC : E < C
    · -- the head is unaffordable; so is, inductively, everything after it
      have hfloor : ⌊E / C⌋ = 0 := by
        rw [Int.floor_eq_zero_iff]
        constructor
        · exact div_nonneg hE hC.le
        · exact (div_lt_one hC).mpr hEC
      have ihr := ih E w (fun x hx => hcap x (List.mem_cons_of_mem a hx))
        (fun x hx => hcost x (List.mem_cons_of_mem a hx)) hE (by omega)
      obtain ⟨ih1, ih2, ih3, ih4⟩ := ihr
      simp only [processActionsGo, hval, ha, if_pos hEC]
      refine ⟨?_, ?_, ?_, ?_⟩
      · simp [List.countP_cons, ih1, hfloor]
      · rw [ih2, hfloor]
        simp
      · simp [ih3]
      · intro r hr
        rcases List.mem_cons.mp hr with h | h
        · subst h; right; exact ⟨rfl, rfl, _, rfl, rfl⟩
        · exact ih4 r h
    · -- the head executes; recurse with the depleted energy
      push_neg at hEC
      have hE' : 0 ≤ E - C := by linarith
      have hge1 : 1 ≤ ⌊E / C⌋ := by
        rw [Int.le_floor]
        push_cast
        exact (one_le_div hC).mpr hEC
      have hfloor : ⌊(E - C) / C⌋ = ⌊E / C⌋ - 1 := by
        rw [sub_div, div_self hC.ne', Int.floor_sub_one]
      have hwlen : (updateActionWindow w ctx.actionWindow.windowStart
          ctx.granted.maxActionsPerWindow.windowTicks [a]).actions.length ≤
          w.actions.length + 1 := by
        unfold updateActionWindow
        simp only [List.map_cons, List.map_nil, List.length_append,
          List.length_cons, List.length_nil]
        have := List.length_filter_le
          (fun x => decide (ctx.actionWindow.windowStart -
            ctx.granted.maxActionsPerWindow.windowTicks ≤ x.tick)) w.actions
        omega
      have ihr := ih (E - C) (updateActionWindow w ctx.actionWindow.windowStart
          ctx.granted.maxActionsPerWindow.windowTicks [a])
        (fun x hx => hcap x (List.mem_cons_of_mem a hx))
        (fun x hx => hcost x (List.mem_cons_of_mem a hx)) hE' (by omega)
      obtain ⟨ih1, ih2, ih3, ih4⟩ := ihr
      have htn : (⌊E / C⌋).toNat = (⌊(E - C) / C⌋).toNat + 1 := by
        rw [hfloor]; omega
      simp only [processActionsGo, hval, ha, if_neg (not_lt.mpr hEC)]
      refine ⟨?_, ?_, ?_, ?_⟩
      · simp [List.countP_cons, ih1, htn, Nat.succ_min_succ]
      · rw [ih2, htn]
        simp only [List.length_cons, Nat.succ_min_succ]
        push_cast
        ring
      · simp [ih3]
      · intro r hr
        rcases List.mem_cons.mp hr with h | h
        · subst h; left; exact ⟨rfl, rfl, rfl⟩
        · exact ih4 r h

/-- **C5.** For starting energy `E ≥ 0` and actions all granted, all priced
at the same `C > 0`, with the rate limit not binding, `processActions`
executes exactly `min(N, ⌊E/C⌋)` actions, returns
`totalCost = executedCount · C`, and every non-executed action is
rejected with `INSUFFICIENT_ENERGY` (the check runs against the running
remaining energy, which is what makes the count come out as `⌊E/C⌋`). -/
theorem processActions_energy_depletion (ctx : SandboxContext)
    (acts : List ActionRequest) (E C : ℚ) (getCost : ActionRequest → ℚ)
    (hcap : ∀ a ∈ acts, ctx.granted.capabilities.contains a.type = true)
    (hcost : ∀ a ∈ acts, getCost a = C)
    (hC : 0 < C) (hE : 0 ≤ E)
    (hrate : ctx.actionWindow.actions.length + acts.length ≤
      ctx.granted.maxActionsPerWindow.max) :
    (processActions acts ctx E getCost).results.countP (·.executed) =
        min acts.length (⌊E / C⌋).toNat ∧
    (processActions acts ctx E getCost).totalCost =
        ((min acts.length (⌊E / C⌋).toNat : ℕ) : ℚ) * C ∧
    (processActions acts ctx E getCost).results.length = acts.length ∧
    (∀ r ∈ (processActions acts ctx E getCost).results,
      (r.executed = true ∧ r.energyCost = C ∧ r.rejection = none) ∨
      (r.executed = false ∧ r.energyCost = 0 ∧
        ∃ rej, r.rejection = some rej ∧ rej.code = .INSUFFICIENT_ENERGY)) :=
  processActionsGo_fixed_cost_spec ctx getCost C hC acts E ctx.actionWindow hcap hcost hE hrate

/-- Witness for C5 — the §8 scenario: three `MOVE`s costing 2 each from
energy 5 execute twice for a total cost of 4. -/
theorem processActions_energy_depletion_witness :
    (processActions [{ type := .MOVE, params := [] }, { type := .MOVE, params := [] },
        { type := .MOVE, params := [] }] freshCtx 5 (fun _ => 2)).results.countP (·.executed) = 2 ∧
    (processActions [{ type := .MOVE, params := [] }, { type := .MOVE, params := [] },
        { type := .MOVE, params := [] }] freshCtx 5 (fun _ => 2)).totalCost = 4 ∧
    (processActions [{ type := .MOVE, params := [] }, { type := .MOVE, params := [] },
        { type := .MOVE, params := [] }] freshCtx 5 (fun _ => 2)).results.length = 3 := by
  have h := processActions_energy_depletion freshCtx
    [{ type := .MOVE, params := [] }, { type := .MOVE, params := [] },
      { type := .MOVE, params := [] }] 5 2 (fun _ => 2)
    (by decide) (fun a _ => rfl) (by norm_num) (by norm_num) (by decide)
  obtain ⟨h1, h2, h3, -⟩ := h
  have hf : (⌊(5 : ℚ) / 2⌋).toNat = 2 := by
    rw [show ⌊(5 : ℚ) / 2⌋ = 2 by norm_num]
    rfl
  refine ⟨?_, ?_, h3⟩
  · rw [h1, hf]
    norm_num [min_def]
  · rw [h2, hf]
    norm_num [min_def]

/-- Helper: `validateAction` only ever looks at the action's `type`. -/
theorem validateAction_congr_type (a b : ActionRequest) (ctx : SandboxContext)
    (h : a.type = b.type) : validateAction a ctx = validateAction b ctx := by
  simp [validateAction, h]

/-- Helper for C6: the processing loop is invariant under changing action
`params`, provided the pricing function prices by `type` alone. -/
theorem processActionsGo_params_congr (ctx : SandboxContext)
    (getCost : ActionRequest → ℚ)
    (hcost : ∀ a b : ActionRequest, a.type = b.type → getCost a = getCost b) :
    ∀ (as₁ as₂ : List ActionRequest) (E : ℚ) (w : ActionWindowState),
      as₁.map (·.type) = as₂.map (·.type) →
      processActionsGo ctx getCost as₁ E w = processActionsGo ctx getCost as₂ E w := by
  intro as₁
  induction as₁ with
  | nil =>
    intro as₂ E w hmap
    cases as₂ with
    | nil => rfl
    | cons b s => simp at hmap
  | cons a r ih =>
    intro as₂ E w hmap
    cases as₂ with
    | nil => simp at hmap
    | cons b s =>
      simp only [List.map_cons, List.cons.injEq] at hmap
      obtain ⟨hty, hmap'⟩ := hmap
      simp only [processActionsGo]
      rw [validateAction_congr_type a b _ hty]
      cases hval : validateAction b { ctx with actionWindow := w } with
      | some rej => simp [ih s E w hmap']
      | none =>
        rw [hcost a b hty]
        by_cases hE : E < getCost b
        · simp [if_pos hE, ih s E w hmap']
        · simp only [if_neg hE]
          have hupd : updateActionWindow w ctx.actionWindow.windowStart
              ctx.granted.maxActionsPerWindow.windowTicks [a] =
              updateActionWindow w ctx.actionWindow.windowStart
              ctx.granted.maxActionsPerWindow.windowTicks [b] := by
            simp [updateActionWindow, hty]
          rw [hupd, ih s (E - getCost b) _ hmap']

/-- **C6.** Two action batches that agree on capability types and differ
only in `params` content are processed identically — same decisions, same
rejection codes, same costs, same `totalCost`, same updated window —
whenever the pricing function prices by type alone: adversarial parameter
keys have zero effect. -/
theorem processActions_params_immunity (ctx : SandboxContext) (E : ℚ)
    (getCost : ActionRequest → ℚ) (as₁ as₂ : List ActionRequest)
    (hmap : as₁.map (·.type) = as₂.map (·.type))
    (hcost : ∀ a b : ActionRequest, a.type = b.type → getCost a = getCost b) :
    processActions as₁ ctx E getCost = processActions as₂ ctx E getCost :=
  processActionsGo_params_congr ctx getCost hcost as₁ as₂ E ctx.actionWindow hmap

/-- The executor test's pricing table, keyed by capability type only. -/
def costOfType : AgentCapability → ℚ
  | .MOVE => 2
  | .SENSE => 1
  | .GENERATE_TRACE => 5
  | _ => 10

/-- Adversarial parameter keys claiming an escalation, a rate-limit bypass
and an energy refund. -/
def adversarialParams : Params :=
  [("_escalate", "GENERATE_TRACE"), ("_bypassRateLimit", "true"), ("_refundEnergy", "1000")]

/-- Witness for C6: a clean `MOVE` and a `MOVE` carrying adversarial params
process to exactly the same result. -/
theorem processActions_params_immunity_witness :
    [({ type := .MOVE, params := [] } : ActionRequest)].map (·.type) =
      [({ type := .MOVE, params := adversarialParams } : ActionRequest)].map (·.type) ∧
    processActions [{ type := .MOVE, params := [] }] freshCtx 100 (fun a => costOfType a.type) =
      processActions [{ type := .MOVE, params := adversarialParams }] freshCtx 100
        (fun a => costOfType a.type) :=
  ⟨rfl, processActions_params_immunity freshCtx 100 (fun a => costOfType a.type)
    [{ type := .MOVE, params := [] }] [{ type := .MOVE, params := adversarialParams }]
    rfl (fun _ _ h => congrArg costOfType h)⟩

/-! ## Claims about the step executor's output validation -/

/-- A step return value whose `actions` is an array but whose
`computeTimeMs` is a string, not a number. -/
def badStepOutput : JsVal :=
  .vObj [("actions", .vArr []), ("computeTimeMs", .vStr "later")]

/-- A step return value with an array `actions` and no `computeTimeMs`. -/
def goodStepOutput : JsVal := .vObj [("actions", .vArr [])]

/-- **C7 counterexample.** The value
`{actions: [], computeTimeMs: "later"}` is not a well-formed
`{actions: list, computeTimeMs: number}` shape, yet the resolved path of
`executeStep` returns it as `output` with no error: the check never looks
at `computeTimeMs`. -/
theorem executeStep_invalid_output_counterexample :
    wellFormedStepOutput badStepOutput = false ∧
    (executeStepResolved badStepOutput 1 10).errorCode = none ∧
    (executeStepResolved badStepOutput 1 10).output = some badStepOutput :=
  ⟨rfl, rfl, rfl⟩

/-- **C7 (amended).** On the resolved, non-throwing path, `executeStep`
reports `INVALID_OUTPUT` (and suppresses the output) exactly when the
returned value is falsy or its `actions` property is not an array;
otherwise the value is passed through as `output` with no error — the
`computeTimeMs` field is never validated. -/
theorem executeStep_output_check_amended (v : JsVal) (ms budget : ℚ) :
    (if v.truthy && (v.getProp "actions").isArray then
      (executeStepResolved v ms budget).output = some v ∧
      (executeStepResolved v ms budget).errorCode = none
    else
      (executeStepResolved v ms budget).output = none ∧
      (executeStepResolved v ms budget).errorCode = some .INVALID_OUTPUT) := by
  by_cases h : (v.truthy && (v.getProp "actions").isArray) = true
  · simp only [h, if_true]
    have hcond : (!v.truthy || !(v.getProp "actions").isArray) = false := by
      simp at h
      simp [h.1, h.2]
    simp [executeStepResolved, hcond]
  · simp only [Bool.not_eq_true] at h
    simp only [h, Bool.false_eq_true, if_false]
    have hcond : (!v.truthy || !(v.getProp "actions").isArray) = true := by
      rcases Bool.and_eq_false_iff.mp h with h' | h' <;> simp [h']
    simp [executeStepResolved, hcond]

/-- Witness for C7 (amended): a truthy object with an array `actions` and
no `computeTimeMs` at all is returned without error. -/
theorem executeStep_output_check_amended_witness :
    (executeStepResolved goodStepOutput 1 10).output = some goodStepOutput ∧
    (executeStepResolved goodStepOutput 1 10).errorCode = none := by
  have h := executeStep_output_check_amended goodStepOutput 1 10
  rwa [if_pos (show (goodStepOutput.truthy &&
    (goodStepOutput.getProp "actions").isArray) = true from rfl)] at h

/-! ## Claims about observation degradation -/

/-- **C8.** Degradation keeps at most `maxCells` cells, in input order;
each kept cell keeps its first `maxFields` fields in source order, and
both numeric observables of a cell are scaled by the same multiplicative
factor lying in `[1 − noiseFloor, 1 + noiseFloor]` (the entity count is
rounded to an integer after scaling, as `Math.round` does); the reported
`fieldsOmitted` is the number of *cells* dropped by the truncation. -/
theorem degradeObservation_budget_and_noise (raw : List ObservedCell)
    (g : GrantedCapabilities) (rand : ℕ → ℚ)
    (hnf : 0 ≤ g.observationBudget.noiseFloor)
    (hr : ∀ i, 0 ≤ rand i ∧ rand i < 1) :
    (degradeObservation raw g rand).cells.length =
      min g.observationBudget.maxCells raw.length ∧
    (degradeObservation raw g rand).fieldsOmitted =
      raw.length - (degradeObservation raw g rand).cells.length ∧
    ∀ (i : ℕ) (h : i < (degradeObservation raw g rand).cells.length)
        (h' : i < raw.length),
      ∃ m : ℚ, 1 - g.observationBudget.noiseFloor ≤ m ∧
        m ≤ 1 + g.observationBudget.noiseFloor ∧
        (degradeObservation raw g rand).cells.get ⟨i, h⟩ =
          { raw.get ⟨i, h'⟩ with
            entityCount := (jsRound ((raw.get ⟨i, h'⟩).entityCount * m) : ℚ)
            traceDensity := (raw.get ⟨i, h'⟩).traceDensity * m
            fields := (raw.get ⟨i, h'⟩).fields.take g.observationBudget.maxFields } ∧
        m = 1 + (rand i * 2 - 1) * g.observationBudget.noiseFloor := by
  refine ⟨?_, ?_, ?_⟩
  · simp [degradeObservation]
  · simp [degradeObservation]
  · intro i h h'
    refine ⟨1 + (rand i * 2 - 1) * g.observationBudget.noiseFloor, ?_, ?_, ?_, rfl⟩
    · nlinarith [(hr i).1, (hr i).2]
    · nlinarith [(hr i).1, (hr i).2]
    · simp only [degradeObservation, List.get_eq_getElem, List.getElem_map,
        List.getElem_enum, List.getElem_take]

/-- A single concrete raw cell. -/
def rawCellSample : ObservedCell :=
  { dx := 0, dy := 0, zone := "FLUX", entityCount := 100, traceDensity := 1/2, fields := [] }

/-- Witness for C8: one raw cell against the base grant's budget of 9
cells is kept whole, with no cells dropped. -/
theorem degradeObservation_budget_and_noise_witness :
    (0 : ℚ) ≤ baseGranted.observationBudget.noiseFloor ∧
    (degradeObservation [rawCellSample] baseGranted (fun _ => 1/2)).cells.length = 1 ∧
    (degradeObservation [rawCellSample] baseGranted (fun _ => 1/2)).fieldsOmitted = 0 := by
  have h := degradeObservation_budget_and_noise [rawCellSample] baseGranted (fun _ => 1/2)
    (by norm_num [baseGranted]) (fun i => ⟨by norm_num, by norm_num⟩)
  refine ⟨by norm_num [baseGranted], ?_, ?_⟩
  · rw [h.1]
    rfl
  · rw [h.2.1, h.1]
    rfl

end Frux
